import Mathlib

/-!
Verification of the retrieval-augmented-generation pipeline of the
document-chat application: the chunking function, the ingestion flow
(indexReportFlow), the query flow (answerQuestionsAboutReportFlow), the
lazily-checked credential step (getMyCollection), and the defensive
text-extraction flow (extractTextFromDocumentFlow).

Modelling conventions for the shallow embedding of the TypeScript source:
- JavaScript strings are modelled by Lean `String` (a list of characters);
  `text.substring(i, i + n)` over the remaining suffix is `take`/`drop` on
  the character list.
- A flow that can throw is modelled as returning `Except String alpha`; a
  try/catch block is modelled by matching on the `Except` produced by the
  guarded code.
- Calls to external services (the vector store and the generation model)
  are modelled as oracle parameters: the store answers a query with a list
  of documents, the write either succeeds or fails, and the generation
  model is a function from the prompt to a response string.  The requests
  the flows submit to those services are recorded in the returned values
  so theorems can speak about them.
- `process.env` is modelled by an `Env` structure.
-/

/-! ## Chunking (chunkText in the ingestion source file) -/

/-- Loop body of chunkText.  The source iterates
`for (let i = 0; i < text.length; i += chunkSize)` and pushes
`text.substring(i, i + chunkSize)`; equivalently, it repeatedly splits off
the first `chunkSize` characters of the remaining text.  The loop performs
at most `text.length` iterations when `chunkSize > 0`, so we run it on a
fuel argument initialised to the length; the `0, _ :: _` branch is never
reached for positive chunk sizes (for `chunkSize = 0` the source loop does
not terminate, so the model is only meaningful for positive sizes). -/
def chunkCharsGo (chunkSize : Nat) : Nat → List Char → List (List Char)
  | _, [] => []
  | 0, _ :: _ => []
  | fuel + 1, c :: cs =>
      (List.take chunkSize (c :: cs)) :: chunkCharsGo chunkSize fuel (List.drop chunkSize (c :: cs))

/-- Splits a long string of text into smaller chunks of a specified size.
Direct model of `chunkText(text, chunkSize = 1000)` from the source; the
caller in the ingestion flow uses the default size 1000, passed explicitly
here. -/
def chunkText (text : String) (chunkSize : Nat) : List String :=
  (chunkCharsGo chunkSize text.length text.data).map String.mk

theorem chunkCharsGo_flatten (S : Nat) (hS : 0 < S) :
    ∀ (fuel : Nat) (l : List Char), l.length ≤ fuel →
      (chunkCharsGo S fuel l).flatten = l := by
  intro fuel
  induction fuel with
  | zero =>
      intro l hl
      cases l with
      | nil => simp [chunkCharsGo]
      | cons c cs => simp at hl
  | succ n ih =>
      intro l hl
      cases l with
      | nil => simp [chunkCharsGo]
      | cons c cs =>
          have hdrop : (List.drop S (c :: cs)).length ≤ n := by
            simp only [List.length_drop, List.length_cons]
            simp only [List.length_cons] at hl
            omega
          simp only [chunkCharsGo, List.flatten_cons, ih _ hdrop]
          exact List.take_append_drop S (c :: cs)

theorem chunkCharsGo_le (S : Nat) :
    ∀ (fuel : Nat) (l : List Char), ∀ c ∈ chunkCharsGo S fuel l, c.length ≤ S := by
  intro fuel
  induction fuel with
  | zero =>
      intro l c hc
      cases l with
      | nil => simp [chunkCharsGo] at hc
      | cons x xs => simp [chunkCharsGo] at hc
  | succ n ih =>
      intro l c hc
      cases l with
      | nil => simp [chunkCharsGo] at hc
      | cons x xs =>
          simp only [chunkCharsGo, List.mem_cons] at hc
          rcases hc with h | h
          · subst h
            rw [List.length_take]
            exact Nat.min_le_left _ _
          · exact ih _ c h

theorem ceil_div_step (S n : Nat) (hS : 0 < S) (hn : 0 < n) :
    (n + S - 1) / S = (n - S + S - 1) / S + 1 := by
  rcases Nat.le_total n S with h | h
  · have h0 : n - S = 0 := Nat.sub_eq_zero_of_le h
    rw [h0]
    have hz : (0 + S - 1) / S = 0 := Nat.div_eq_of_lt (by omega)
    rw [hz]
    have h1 : n + S - 1 = (n - 1) + 1 * S := by omega
    rw [h1, Nat.add_mul_div_right _ _ hS, Nat.div_eq_of_lt (by omega)]
  · have h1 : n + S - 1 = (n - S + S - 1) + S := by omega
    rw [h1, Nat.add_div_right _ hS]

theorem chunkCharsGo_length (S : Nat) (hS : 0 < S) :
    ∀ (fuel : Nat) (l : List Char), l.length ≤ fuel →
      (chunkCharsGo S fuel l).length = (l.length + S - 1) / S := by
  intro fuel
  induction fuel with
  | zero =>
      intro l hl
      cases l with
      | nil =>
          simp only [chunkCharsGo, List.length_nil]
          exact (Nat.div_eq_of_lt (by omega)).symm
      | cons c cs => simp at hl
  | succ n ih =>
      intro l hl
      cases l with
      | nil =>
          simp only [chunkCharsGo, List.length_nil]
          exact (Nat.div_eq_of_lt (by omega)).symm
      | cons c cs =>
          have hdrop : (List.drop S (c :: cs)).length ≤ n := by
            simp only [List.length_drop, List.length_cons]
            simp only [List.length_cons] at hl
            omega
          simp only [chunkCharsGo, List.length_cons, ih _ hdrop, List.length_drop]
          exact (ceil_div_step S (cs.length + 1) hS (by omega)).symm

theorem string_mk_append (a b : List Char) :
    String.mk a ++ String.mk b = String.mk (a ++ b) :=
  String.ext (String.data_append (String.mk a) (String.mk b))

theorem string_join_map_mk_aux (acc : List Char) (l : List (List Char)) :
    List.foldl (fun r s => r ++ s) (String.mk acc) (l.map String.mk) =
      String.mk (acc ++ l.flatten) := by
  induction l generalizing acc with
  | nil => simp
  | cons x xs ih =>
      simp only [List.map_cons, List.foldl_cons, string_mk_append, ih, List.flatten_cons,
        List.append_assoc]

theorem string_join_map_mk (l : List (List Char)) :
    String.join (l.map String.mk) = String.mk l.flatten := by
  have h : "" = String.mk ([] : List Char) := rfl
  simp only [String.join, h, string_join_map_mk_aux, List.nil_append]

theorem string_mk_data (s : String) : String.mk s.data = s := rfl

theorem string_length_data (s : String) : s.length = s.data.length := rfl

theorem string_eq_empty_iff (s : String) : s = "" ↔ s.data = [] := by
  constructor
  · intro h; rw [h]
  · intro h
    cases s with
    | mk d => cases h; rfl

/-- C1. For every text T and every chunk size S > 0, chunking T with size S
produces a chunk sequence whose concatenation equals T exactly, in which
every chunk has length at most S, whose length equals the ceiling of
T.length / S (written (T.length + S - 1) / S), and which is empty when T
is the empty string. -/
theorem chunkText_correct (T : String) (S : Nat) (hS : 0 < S) :
    String.join (chunkText T S) = T ∧
    (∀ c ∈ chunkText T S, c.length ≤ S) ∧
    (chunkText T S).length = (T.length + S - 1) / S ∧
    (T = "" → chunkText T S = []) := by
  refine ⟨?_, ?_, ?_, ?_⟩
  · rw [chunkText, string_join_map_mk,
      chunkCharsGo_flatten S hS T.length T.data (le_of_eq (string_length_data T).symm),
      string_mk_data]
  · intro c hc
    rw [chunkText, List.mem_map] at hc
    obtain ⟨d, hd, rfl⟩ := hc
    exact chunkCharsGo_le S T.length T.data d hd
  · rw [chunkText, List.length_map,
      chunkCharsGo_length S hS T.length T.data (le_of_eq (string_length_data T).symm),
      string_length_data]
  · intro hT
    rw [hT]
    rfl

theorem chunkText_correct_witness :
    0 < 2 ∧
    (String.join (chunkText "abcde" 2) = "abcde" ∧
     (∀ c ∈ chunkText "abcde" 2, c.length ≤ 2) ∧
     (chunkText "abcde" 2).length = (String.length "abcde" + 2 - 1) / 2 ∧
     ( "abcde" = "" → chunkText "abcde" 2 = [])) :=
  ⟨by decide, chunkText_correct "abcde" 2 (by decide)⟩

/-! ## Decimal rendering of chunk indices

The source builds chunk identifiers with a template literal that
stringifies the zero-based index; for Lean naturals that stringification
is Nat.repr.  To reason about it we characterise it by the structural
function natDigits below and prove that the rendering is injective. -/

/-- Decimal digit list of a natural number, most significant digit first. -/
def natDigits (n : Nat) : List Char :=
  if n < 10 then [Nat.digitChar n]
  else natDigits (n / 10) ++ [Nat.digitChar (n % 10)]
decreasing_by exact Nat.div_lt_self (by omega) (by omega)

theorem natDigits_of_lt {n : Nat} (h : n < 10) : natDigits n = [Nat.digitChar n] := by
  rw [natDigits, if_pos h]

theorem natDigits_of_ge {n : Nat} (h : ¬ n < 10) :
    natDigits n = natDigits (n / 10) ++ [Nat.digitChar (n % 10)] := by
  rw [natDigits, if_neg h]

theorem natDigits_ne_nil (n : Nat) : natDigits n ≠ [] := by
  by_cases h : n < 10
  · rw [natDigits_of_lt h]
    exact List.cons_ne_nil _ _
  · rw [natDigits_of_ge h]
    exact List.append_ne_nil_of_right_ne_nil _ (List.cons_ne_nil _ _)

theorem digitChar_inj_lt :
    ∀ a, a < 10 → ∀ b, b < 10 → Nat.digitChar a = Nat.digitChar b → a = b := by
  decide

theorem toDigitsCore_eq_natDigits :
    ∀ (fuel n : Nat) (ds : List Char), n < fuel →
      Nat.toDigitsCore 10 fuel n ds = natDigits n ++ ds := by
  intro fuel
  induction fuel with
  | zero => intro n ds h; omega
  | succ m ih =>
      intro n ds h
      by_cases hn : n < 10
      · have hdiv : n / 10 = 0 := Nat.div_eq_of_lt hn
        simp only [Nat.toDigitsCore, hdiv, if_pos]
        rw [natDigits_of_lt hn, Nat.mod_eq_of_lt hn]
        rfl
      · have hdiv : ¬ n / 10 = 0 := by
          intro h0
          have := Nat.div_eq_of_lt (show n < 10 by
            have h10 : 0 < 10 := by omega
            rcases Nat.lt_or_ge n 10 with h1 | h1
            · exact h1
            · exact absurd h0 (Nat.ne_of_gt (Nat.div_pos h1 h10)))
          exact hn (by omega)
        simp only [Nat.toDigitsCore, if_neg hdiv]
        have hlt : n / 10 < m := by
          have h1 : n / 10 < n := Nat.div_lt_self (by omega) (by omega)
          omega
        rw [ih (n / 10) _ hlt, natDigits_of_ge hn, List.append_assoc]
        rfl

theorem natRepr_eq_natDigits (n : Nat) : Nat.repr n = String.mk (natDigits n) := by
  show (Nat.toDigits 10 n).asString = String.mk (natDigits n)
  rw [Nat.toDigits, toDigitsCore_eq_natDigits (n + 1) n [] (Nat.lt_succ_self n),
    List.append_nil]
  rfl

theorem natDigits_injective : ∀ a b : Nat, natDigits a = natDigits b → a = b := by
  intro a
  induction a using Nat.strong_induction_on with
  | _ a ih =>
      intro b h
      by_cases ha : a < 10 <;> by_cases hb : b < 10
      · rw [natDigits_of_lt ha, natDigits_of_lt hb] at h
        exact digitChar_inj_lt a ha b hb (List.cons.inj h).1
      · rw [natDigits_of_lt ha, natDigits_of_ge hb] at h
        have hlen := congrArg List.length h
        simp only [List.length_cons, List.length_nil, List.length_append,
          List.length_singleton] at hlen
        have h0 : (natDigits (b / 10)).length = 0 := by omega
        exact absurd (List.length_eq_zero.mp h0) (natDigits_ne_nil (b / 10))
      · rw [natDigits_of_ge ha, natDigits_of_lt hb] at h
        have hlen := congrArg List.length h
        simp only [List.length_cons, List.length_nil, List.length_append,
          List.length_singleton] at hlen
        have h0 : (natDigits (a / 10)).length = 0 := by omega
        exact absurd (List.length_eq_zero.mp h0) (natDigits_ne_nil (a / 10))
      · rw [natDigits_of_ge ha, natDigits_of_ge hb] at h
        have hparts := List.append_inj' h (by simp)
        have hdiv : a / 10 = b / 10 :=
          ih (a / 10) (Nat.div_lt_self (by omega) (by omega)) (b / 10) hparts.1
        have hmodchar : Nat.digitChar (a % 10) = Nat.digitChar (b % 10) :=
          (List.cons.inj hparts.2).1
        have hmod : a % 10 = b % 10 :=
          digitChar_inj_lt (a % 10) (Nat.mod_lt a (by omega)) (b % 10)
            (Nat.mod_lt b (by omega)) hmodchar
        omega

theorem natRepr_injective : ∀ a b : Nat, Nat.repr a = Nat.repr b → a = b := by
  intro a b h
  rw [natRepr_eq_natDigits, natRepr_eq_natDigits] at h
  exact natDigits_injective a b (congrArg String.data h)

theorem toString_nat_injective : ∀ a b : Nat, toString a = toString b → a = b := by
  intro a b h
  exact natRepr_injective a b h

/-! ## Environment and the lazily-checked ChromaDB collection handle -/

/-- The part of process.env that the two RAG flows read.  The source only
tests COHERE_API_KEY for presence before building the embedder; the other
Chroma credentials are passed through untested. -/
structure Env where
  cohereApiKey : Option String
deriving DecidableEq

/-- Model of getMyCollection from both RAG source files: when the Cohere
key is absent it throws the fixed configuration error, otherwise it yields
the (opaque) handle to the reports-collection.  The memoisation of the
handle is invisible to a single call and is not modelled. -/
def getMyCollection (env : Env) : Except String Unit :=
  match env.cohereApiKey with
  | none => Except.error "COHERE_API_KEY environment variable not set."
  | some _ => Except.ok ()

/-! ## Ingestion flow (indexReportFlow) -/

/-- Input schema of the indexing flow: text, reportId, userId. -/
structure IndexReportInput where
  text : String
  reportId : String
  userId : String
deriving DecidableEq

/-- Metadata attached to every chunk by the ingestion flow. -/
structure ChunkMetadata where
  userId : String
  reportId : String
deriving DecidableEq

/-- The batch submitted to collection.add: parallel lists of ids,
documents and metadatas. -/
structure AddRequest where
  ids : List String
  documents : List String
  metadatas : List ChunkMetadata
deriving DecidableEq

/-- Chunk identifiers assigned by the ingestion flow: the source maps each
chunk, with its index, to the template string reportId-chunk-index. -/
def indexChunkIds (reportId : String) (textChunks : List String) : List String :=
  textChunks.mapIdx (fun index _ => (reportId ++ "-chunk-") ++ toString index)

/-- Metadata list built by the ingestion flow: one record per chunk, each
carrying the owning user id and the report id. -/
def indexMetadatas (input : IndexReportInput) (textChunks : List String) : List ChunkMetadata :=
  textChunks.map (fun _ => { userId := input.userId, reportId := input.reportId })

/-- Observable outcome of one run of the ingestion flow: the value
returned to the caller (or the error thrown past it), the number of
collection.add calls performed, and the batch submitted, if any. -/
structure IndexOutcome where
  result : Except String Bool
  addCalls : Nat
  addRequest : Option AddRequest

/-- Model of indexReportFlow.  The flow chunks the text with the default
size 1000, returns success when there is nothing to index, and otherwise
runs getMyCollection and collection.add inside a try/catch whose catch
branch returns success false.  The outcome of the external write is the
oracle parameter addOutcome; the result field Bool is the success flag of
the returned object. -/
def indexReportFlow (input : IndexReportInput) (env : Env)
    (addOutcome : Except String Unit) : IndexOutcome :=
  let textChunks := chunkText input.text 1000
  if textChunks.length = 0 then
    { result := Except.ok true, addCalls := 0, addRequest := none }
  else
    let ids := indexChunkIds input.reportId textChunks
    let metadatas := indexMetadatas input textChunks
    match getMyCollection env with
    | Except.error _ =>
        { result := Except.ok false, addCalls := 0, addRequest := none }
    | Except.ok _ =>
        let req : AddRequest := { ids := ids, documents := textChunks, metadatas := metadatas }
        match addOutcome with
        | Except.ok _ =>
            { result := Except.ok true, addCalls := 1, addRequest := some req }
        | Except.error _ =>
            { result := Except.ok false, addCalls := 1, addRequest := some req }

/-! ## Query flow (answerQuestionsAboutReportFlow) -/

/-- Input schema of the question-answering flow: question and userId. -/
structure AnswerInput where
  question : String
  userId : String
deriving DecidableEq

/-- The request submitted to collection.query: the query texts, the
requested number of results, and the where-filter on the userId metadata
field. -/
structure QueryRequest where
  queryTexts : List String
  nResults : Nat
  whereUserId : String
deriving DecidableEq

/-- The query the flow issues: the question as the single query text, at
most 5 results, filtered to the asking user. -/
def answerQueryRequest (input : AnswerInput) : QueryRequest :=
  { queryTexts := [input.question], nResults := 5, whereUserId := input.userId }

/-- The fixed delimiter placed between retrieved chunk texts. -/
def contextDelim : String := "\n\n---\n\n"

/-- The fixed fallback answer returned when retrieval yields no chunks. -/
def noInfoAnswer : String :=
  "I couldn\x27t find any relevant information in your documents to answer that question. Please try uploading more documents or rephrasing your question."

/-- Text of the prompt template before the interpolated context. -/
def promptPre : String :=
  "You are an AI assistant that answers questions based *only* on the provided context from user-uploaded documents. If the answer is not found in the context, say \"I could not find an answer in the provided documents.\"\n\nContext from documents:\n\"\"\"\n"

/-- Text of the prompt template between the context and the question. -/
def promptMid : String := "\n\"\"\"\n\nQuestion:\n\"\"\"\n"

/-- Text of the prompt template after the interpolated question. -/
def promptEnd : String := "\n\"\"\"\n\nBased on the context above, what is the answer?"

/-- The final prompt: the template literal of the source with the context
and the question interpolated. -/
def finalPromptOf (context question : String) : String :=
  ((promptPre ++ context) ++ (promptMid ++ question)) ++ promptEnd

/-- Model of JavaScript Array.prototype.join with a separator: the empty
string for an empty array, otherwise the elements in order with the
separator between adjacent pairs. -/
def joinWith (sep : String) : List String → String
  | [] => ""
  | x :: rest => rest.foldl (fun acc d => (acc ++ sep) ++ d) x

/-- Observable outcome of the answering flow once past the credential
check: the answer, the retrieval request submitted to the collection, and
the prompt sent to the generation model, if any. -/
structure AnswerResult where
  answer : String
  retrievalRequest : Option QueryRequest
  promptSent : Option String
deriving DecidableEq

/-- Model of answerQuestionsAboutReportFlow.  getMyCollection runs outside
any try/catch, so its error propagates to the caller.  The documents the
store returns for the query are the oracle parameter retrievedDocs
(queryResults.documents[0] or the empty list), and the generation model is
the oracle gen.  With no retrieved documents the flow short-circuits to
the fixed fallback answer without calling gen; otherwise it joins the
documents with the fixed delimiter, builds the final prompt, and returns
the generated text verbatim. -/
def answerQuestionsAboutReportFlow (input : AnswerInput) (env : Env)
    (retrievedDocs : List String) (gen : String → String) : Except String AnswerResult :=
  match getMyCollection env with
  | Except.error e => Except.error e
  | Except.ok _ =>
    let req := answerQueryRequest input
    let context := joinWith contextDelim retrievedDocs
    if retrievedDocs.length = 0 then
      Except.ok { answer := noInfoAnswer, retrievalRequest := some req, promptSent := none }
    else
      let finalPrompt := finalPromptOf context input.question
      Except.ok { answer := gen finalPrompt, retrievalRequest := some req,
                  promptSent := some finalPrompt }

/-- Modelled from the spec: the second observed variant of the query flow.
Its implementation is not among the source files; only its caller is (the
chat page invokes answerQuestionsAboutReport with the question and the
list of pre-fetched report texts instead of a userId).  Per the spec, the
variant accepts the document texts directly, performs no retrieval step
against the vector store, concatenates all supplied document texts as the
context, and ends in the same generation call as the retrieval variant. -/
def answerFromSuppliedReportsFlow (question : String) (reports : List String)
    (gen : String → String) : AnswerResult :=
  let context := String.join reports
  { answer := gen (finalPromptOf context question),
    retrievalRequest := none,
    promptSent := some (finalPromptOf context question) }

/-! ## The external vector store, abstractly -/

/-- One entry of the external collection, as the ingestion flow writes it:
an id, a document text, and the attached metadata. -/
structure ChunkEntry where
  id : String
  document : String
  metadata : ChunkMetadata
deriving DecidableEq

/-- Modelled from the spec: the external vector store honors the
where-filter of a query.  Every entry it returns for a request is a stored
entry whose metadata userId equals the filter value of the request.  The
store itself is external to the repository, so this is the assumption the
isolation property is conditioned on. -/
def honorsFilter (store : List ChunkEntry) (req : QueryRequest)
    (results : List ChunkEntry) : Prop :=
  ∀ e ∈ results, e ∈ store ∧ e.metadata.userId = req.whereUserId

/-! ## Defensive text extraction (extractTextFromDocumentFlow, policy b) -/

/-- JSON values, as produced by JSON.parse on the model response. -/
inductive Json where
  | null : Json
  | bool (b : Bool) : Json
  | num (n : Int) : Json
  | str (s : String) : Json
  | arr (elems : List Json) : Json
  | obj (fields : List (String × Json)) : Json

/-- Model of ExtractTextFromDocumentOutputSchema.parse (a zod object with
the single string field text): validation succeeds exactly on a JSON
object whose text property is a string, yielding that string; unknown
keys are stripped. -/
def zodParseOutput : Json → Option String
  | Json.obj fields =>
      match fields.lookup "text" with
      | some (Json.str s) => some s
      | _ => none
  | _ => none

/-- Output schema of the extraction flow: a single text field. -/
structure ExtractOutput where
  text : String
deriving DecidableEq

/-- Model of the defensive extractTextFromDocumentFlow variant.  The raw
model response is the oracle parameter modelResponse and JSON.parse is the
oracle jsonParse (none models a parse exception).  The source tries
JSON.parse followed by schema validation and on any failure of either
falls back to wrapping the entire raw response in the output object. -/
def extractTextFromDocumentFlow (modelResponse : String)
    (jsonParse : String → Option Json) : ExtractOutput :=
  match jsonParse modelResponse with
  | some parsed =>
      match zodParseOutput parsed with
      | some s => { text := s }
      | none => { text := modelResponse }
  | none => { text := modelResponse }

/-! ## The spec-side rendering of the context section -/

/-- The context section as the spec words it: all chunk texts in retrieval
order, each adjacent pair separated by the fixed delimiter.  Stated as its
own recursive definition so the flow (which uses the join of the source)
can be proved to refine it. -/
def sepConcat (sep : String) : List String → String
  | [] => ""
  | [d] => d
  | d :: rest => (d ++ sep) ++ sepConcat sep rest

theorem sepConcat_cons_append (sep a b : String) (t : List String) :
    sepConcat sep ((a ++ b) :: t) = a ++ sepConcat sep (b :: t) := by
  cases t with
  | nil => rfl
  | cons c ts =>
      show ((a ++ b) ++ sep) ++ sepConcat sep (c :: ts) =
        a ++ ((b ++ sep) ++ sepConcat sep (c :: ts))
      rw [String.append_assoc a b sep, String.append_assoc]

theorem joinWith_foldl (sep : String) :
    ∀ (rest : List String) (x : String),
      List.foldl (fun acc d => (acc ++ sep) ++ d) x rest = sepConcat sep (x :: rest) := by
  intro rest
  induction rest with
  | nil => intro x; rfl
  | cons y t ih =>
      intro x
      show List.foldl (fun acc d => (acc ++ sep) ++ d) ((x ++ sep) ++ y) t =
        sepConcat sep (x :: y :: t)
      rw [ih ((x ++ sep) ++ y), sepConcat_cons_append sep (x ++ sep) y t]
      rfl

theorem joinWith_eq_sepConcat (sep : String) (l : List String) :
    joinWith sep l = sepConcat sep l := by
  cases l with
  | nil => rfl
  | cons x rest => exact joinWith_foldl sep rest x

/-! ## Claim theorems -/

/-- C2. Every ingested chunk carries metadata whose userId is the owner
who submitted the document, and the query flow always filters retrieval
by userId equality with the asking owner; hence, assuming the external
store honors its filter, no chunk returned for one owner carries the
metadata of a different owner B. -/
theorem owner_isolation (inputI : IndexReportInput) (inputQ : AnswerInput)
    (store results : List ChunkEntry) (B : String) (hB : B ≠ inputQ.userId)
    (hHon : honorsFilter store (answerQueryRequest inputQ) results) :
    (∀ m ∈ indexMetadatas inputI (chunkText inputI.text 1000), m.userId = inputI.userId) ∧
    (answerQueryRequest inputQ).whereUserId = inputQ.userId ∧
    (∀ e ∈ results, e.metadata.userId = inputQ.userId ∧ e.metadata.userId ≠ B) := by
  refine ⟨?_, rfl, ?_⟩
  · intro m hm
    rw [indexMetadatas, List.mem_map] at hm
    obtain ⟨c, _, rfl⟩ := hm
    rfl
  · intro e he
    have h := (hHon e he).2
    refine ⟨h, ?_⟩
    intro hc
    exact hB (hc ▸ h)

theorem owner_isolation_witness :
    ( "bob" ≠ "alice" ∧
      honorsFilter [ChunkEntry.mk "r1-chunk-0" "doc" (ChunkMetadata.mk "alice" "r1")]
        (answerQueryRequest (AnswerInput.mk "q" "alice"))
        [ChunkEntry.mk "r1-chunk-0" "doc" (ChunkMetadata.mk "alice" "r1")]) ∧
    ((∀ m ∈ indexMetadatas (IndexReportInput.mk "t" "r1" "alice") (chunkText "t" 1000),
        m.userId = "alice") ∧
     (answerQueryRequest (AnswerInput.mk "q" "alice")).whereUserId = "alice" ∧
     (∀ e ∈ [ChunkEntry.mk "r1-chunk-0" "doc" (ChunkMetadata.mk "alice" "r1")],
        e.metadata.userId = "alice" ∧ e.metadata.userId ≠ "bob")) :=
  ⟨⟨by decide, fun e he => by
      obtain rfl := List.mem_singleton.mp he
      exact ⟨List.mem_singleton.mpr rfl, rfl⟩⟩,
   owner_isolation (IndexReportInput.mk "t" "r1" "alice") (AnswerInput.mk "q" "alice")
     [ChunkEntry.mk "r1-chunk-0" "doc" (ChunkMetadata.mk "alice" "r1")]
     [ChunkEntry.mk "r1-chunk-0" "doc" (ChunkMetadata.mk "alice" "r1")]
     "bob" (by decide)
     (fun e he => by
       obtain rfl := List.mem_singleton.mp he
       exact ⟨List.mem_singleton.mpr rfl, rfl⟩)⟩

/-- C3. When retrieval returns zero chunks, the query flow returns exactly
the fixed fallback answer and sends no prompt to the generation model, for
every question, owner and generation oracle. -/
theorem zero_retrieval_short_circuit (input : AnswerInput) (env : Env) (k : String)
    (gen : String → String) (hk : env.cohereApiKey = some k) :
    answerQuestionsAboutReportFlow input env [] gen =
      Except.ok { answer := noInfoAnswer,
                  retrievalRequest := some (answerQueryRequest input),
                  promptSent := none } := by
  simp [answerQuestionsAboutReportFlow, getMyCollection, hk]

theorem zero_retrieval_short_circuit_witness :
    (Env.mk (some "key")).cohereApiKey = some "key" ∧
    answerQuestionsAboutReportFlow (AnswerInput.mk "q" "alice") (Env.mk (some "key")) []
        (fun _ => "resp") =
      Except.ok { answer := noInfoAnswer,
                  retrievalRequest := some (answerQueryRequest (AnswerInput.mk "q" "alice")),
                  promptSent := none } :=
  ⟨rfl, zero_retrieval_short_circuit (AnswerInput.mk "q" "alice") (Env.mk (some "key")) "key"
    (fun _ => "resp") rfl⟩

/-- C4. When retrieval returns between 1 and 5 chunks (and the query
request asks for at most 5 results), the prompt sent to the generation
model is the fixed template whose context section is exactly the chunk
texts in retrieval order, adjacent pairs separated by the fixed
delimiter (sepConcat is the spec-side rendering of that section). -/
theorem retrieval_context_assembly (input : AnswerInput) (env : Env) (k : String)
    (docs : List String) (gen : String → String) (hk : env.cohereApiKey = some k)
    (h1 : 1 ≤ docs.length) (h5 : docs.length ≤ 5) :
    (answerQueryRequest input).nResults = 5 ∧
    answerQuestionsAboutReportFlow input env docs gen =
      Except.ok { answer := gen (finalPromptOf (sepConcat contextDelim docs) input.question),
                  retrievalRequest := some (answerQueryRequest input),
                  promptSent :=
                    some (finalPromptOf (sepConcat contextDelim docs) input.question) } := by
  refine ⟨rfl, ?_⟩
  have hne : ¬ docs.length = 0 := by omega
  simp [answerQuestionsAboutReportFlow, getMyCollection, hk, hne, joinWith_eq_sepConcat]

theorem retrieval_context_assembly_witness :
    ((Env.mk (some "key")).cohereApiKey = some "key" ∧
      1 ≤ [String.mk [Char.ofNat 97], String.mk [Char.ofNat 98]].length ∧
      [String.mk [Char.ofNat 97], String.mk [Char.ofNat 98]].length ≤ 5) ∧
    ((answerQueryRequest (AnswerInput.mk "q" "alice")).nResults = 5 ∧
     answerQuestionsAboutReportFlow (AnswerInput.mk "q" "alice") (Env.mk (some "key"))
         [String.mk [Char.ofNat 97], String.mk [Char.ofNat 98]] (fun p => p) =
       Except.ok { answer := (fun p => p)
                     (finalPromptOf
                       (sepConcat contextDelim
                         [String.mk [Char.ofNat 97], String.mk [Char.ofNat 98]]) "q"),
                   retrievalRequest := some (answerQueryRequest (AnswerInput.mk "q" "alice")),
                   promptSent :=
                     some (finalPromptOf
                       (sepConcat contextDelim
                         [String.mk [Char.ofNat 97], String.mk [Char.ofNat 98]]) "q") }) :=
  ⟨⟨rfl, by decide, by decide⟩,
   retrieval_context_assembly (AnswerInput.mk "q" "alice") (Env.mk (some "key")) "key"
     [String.mk [Char.ofNat 97], String.mk [Char.ofNat 98]] (fun p => p) rfl
     (by decide) (by decide)⟩

theorem chunkText_length_pos (text : String) (h : text ≠ "") :
    0 < (chunkText text 1000).length := by
  have hdata : text.data ≠ [] := fun hd => h ((string_eq_empty_iff text).mpr hd)
  have hlen : 0 < text.data.length := List.length_pos.mpr hdata
  rw [chunkText, List.length_map,
    chunkCharsGo_length 1000 (by omega) text.length text.data
      (le_of_eq (string_length_data text).symm)]
  exact Nat.div_pos (by omega) (by omega)

/-- C5. When the external write fails, the ingestion flow catches the
failure and returns success false to the caller: it does not re-throw the
exception (the result is an ok value, not an error) and it submits the
write exactly once (no retry). -/
theorem write_failure_caught (input : IndexReportInput) (env : Env) (k e : String)
    (hk : env.cohereApiKey = some k) (ht : input.text ≠ "") :
    (indexReportFlow input env (Except.error e)).result = Except.ok false ∧
    (indexReportFlow input env (Except.error e)).addCalls = 1 := by
  have hne : ¬ (chunkText input.text 1000).length = 0 := by
    have := chunkText_length_pos input.text ht
    omega
  constructor <;> simp [indexReportFlow, hne, getMyCollection, hk]

theorem write_failure_caught_witness :
    ((Env.mk (some "key")).cohereApiKey = some "key" ∧
      (IndexReportInput.mk "hello" "r1" "u1").text ≠ "") ∧
    ((indexReportFlow (IndexReportInput.mk "hello" "r1" "u1") (Env.mk (some "key"))
        (Except.error "boom")).result = Except.ok false ∧
     (indexReportFlow (IndexReportInput.mk "hello" "r1" "u1") (Env.mk (some "key"))
        (Except.error "boom")).addCalls = 1) :=
  ⟨⟨rfl, by decide⟩,
   write_failure_caught (IndexReportInput.mk "hello" "r1" "u1") (Env.mk (some "key"))
     "key" "boom" rfl (by decide)⟩

/-- C6. Ingesting empty document text returns success and performs no
write against the external collection: no add call happens and no batch
is submitted, for every environment and write oracle. -/
theorem empty_text_success_no_write (input : IndexReportInput) (env : Env)
    (addOutcome : Except String Unit) (ht : input.text = "") :
    (indexReportFlow input env addOutcome).result = Except.ok true ∧
    (indexReportFlow input env addOutcome).addCalls = 0 ∧
    (indexReportFlow input env addOutcome).addRequest = none := by
  have h0 : chunkText input.text 1000 = [] := by rw [ht]; rfl
  refine ⟨?_, ?_, ?_⟩ <;> simp [indexReportFlow, h0]

theorem empty_text_success_no_write_witness :
    (IndexReportInput.mk "" "r1" "u1").text = "" ∧
    ((indexReportFlow (IndexReportInput.mk "" "r1" "u1") (Env.mk none)
        (Except.ok ())).result = Except.ok true ∧
     (indexReportFlow (IndexReportInput.mk "" "r1" "u1") (Env.mk none)
        (Except.ok ())).addCalls = 0 ∧
     (indexReportFlow (IndexReportInput.mk "" "r1" "u1") (Env.mk none)
        (Except.ok ())).addRequest = none) :=
  ⟨rfl, empty_text_success_no_write (IndexReportInput.mk "" "r1" "u1") (Env.mk none)
    (Except.ok ()) rfl⟩

/-- C7. For every document identifier D and chunk list of length N, the
assigned chunk identifiers are exactly the strings D-chunk-0 through
D-chunk-(N-1), in that order, and they are pairwise distinct. -/
theorem chunk_ids_exact_and_distinct (D : String) (textChunks : List String) :
    indexChunkIds D textChunks =
      (List.range textChunks.length).map (fun i => (D ++ "-chunk-") ++ toString i) ∧
    (indexChunkIds D textChunks).length = textChunks.length ∧
    (indexChunkIds D textChunks).Nodup := by
  have hinj : Function.Injective (fun i : Nat => (D ++ "-chunk-") ++ toString i) := by
    intro a b hab
    have hdata := congrArg String.data hab
    simp only [String.data_append] at hdata
    exact toString_nat_injective a b (String.ext (List.append_inj_right hdata rfl))
  have hmap : indexChunkIds D textChunks =
      (List.range textChunks.length).map (fun i => (D ++ "-chunk-") ++ toString i) := by
    apply List.ext_getElem
    · simp [indexChunkIds]
    · intro i h1 h2
      simp [indexChunkIds]
  refine ⟨hmap, ?_, ?_⟩
  · simp [indexChunkIds]
  · rw [hmap]
    exact List.Nodup.map hinj (List.nodup_range _)

/-- C8, counterexample to the claim as stated.  The claim says that for
ingestion and query alike a missing credential is surfaced to the caller
rather than converted into a non-fatal result; but in the ingestion flow
getMyCollection runs inside the try/catch, so with no Cohere key and
non-empty text the flow returns the non-fatal value success false instead
of throwing. -/
theorem missing_credential_claim_counterexample :
    (indexReportFlow (IndexReportInput.mk "hello" "r1" "u1") (Env.mk none)
        (Except.ok ())).result = Except.ok false := by
  rfl

/-- C8, amended.  A missing credential is surfaced to the caller as the
fixed configuration error by the query flow (whose credential check runs
outside any try/catch), with no retry; in the ingestion flow, however, the
same error is caught by the surrounding try/catch and converted into the
non-fatal result success false, with no write attempted. -/
theorem missing_credential_behavior (inputQ : AnswerInput) (inputI : IndexReportInput)
    (env : Env) (docs : List String) (gen : String → String)
    (addOutcome : Except String Unit) (hk : env.cohereApiKey = none)
    (ht : inputI.text ≠ "") :
    answerQuestionsAboutReportFlow inputQ env docs gen =
      Except.error "COHERE_API_KEY environment variable not set." ∧
    (indexReportFlow inputI env addOutcome).result = Except.ok false ∧
    (indexReportFlow inputI env addOutcome).addCalls = 0 := by
  have hne : ¬ (chunkText inputI.text 1000).length = 0 := by
    have := chunkText_length_pos inputI.text ht
    omega
  refine ⟨?_, ?_, ?_⟩
  · simp [answerQuestionsAboutReportFlow, getMyCollection, hk]
  · simp [indexReportFlow, hne, getMyCollection, hk]
  · simp [indexReportFlow, hne, getMyCollection, hk]

theorem missing_credential_behavior_witness :
    ((Env.mk none).cohereApiKey = none ∧ (IndexReportInput.mk "hello" "r1" "u1").text ≠ "") ∧
    (answerQuestionsAboutReportFlow (AnswerInput.mk "q" "alice") (Env.mk none) []
        (fun _ => "resp") =
      Except.error "COHERE_API_KEY environment variable not set." ∧
     (indexReportFlow (IndexReportInput.mk "hello" "r1" "u1") (Env.mk none)
        (Except.error "boom")).result = Except.ok false ∧
     (indexReportFlow (IndexReportInput.mk "hello" "r1" "u1") (Env.mk none)
        (Except.error "boom")).addCalls = 0) :=
  ⟨⟨rfl, by decide⟩,
   missing_credential_behavior (AnswerInput.mk "q" "alice")
     (IndexReportInput.mk "hello" "r1" "u1") (Env.mk none) [] (fun _ => "resp")
     (Except.error "boom") rfl (by decide)⟩

/-- C9. The second variant of the query operation accepts pre-fetched
document texts directly, performs no retrieval against the vector store
(it submits no query request), and uses the concatenation of all supplied
document texts as the context of the same generation prompt. -/
theorem supplied_reports_variant (question : String) (reports : List String)
    (gen : String → String) :
    (answerFromSuppliedReportsFlow question reports gen).retrievalRequest = none ∧
    (answerFromSuppliedReportsFlow question reports gen).promptSent =
      some (finalPromptOf (String.join reports) question) ∧
    (answerFromSuppliedReportsFlow question reports gen).answer =
      gen (finalPromptOf (String.join reports) question) :=
  ⟨rfl, rfl, rfl⟩

/-- C10. The defensive extraction flow always returns a result for every
model response: when JSON.parse succeeds and the parsed value validates
against the single-field schema, the validated text is returned; in every
other case (parse failure or schema failure) the entire raw response
becomes the text field. -/
theorem extraction_never_fails (modelResponse : String)
    (jsonParse : String → Option Json) :
    (∀ parsed s, jsonParse modelResponse = some parsed → zodParseOutput parsed = some s →
      extractTextFromDocumentFlow modelResponse jsonParse = ExtractOutput.mk s) ∧
    (∀ parsed, jsonParse modelResponse = some parsed → zodParseOutput parsed = none →
      extractTextFromDocumentFlow modelResponse jsonParse = ExtractOutput.mk modelResponse) ∧
    (jsonParse modelResponse = none →
      extractTextFromDocumentFlow modelResponse jsonParse = ExtractOutput.mk modelResponse) := by
  refine ⟨?_, ?_, ?_⟩
  · intro parsed s hp hs
    simp [extractTextFromDocumentFlow, hp, hs]
  · intro parsed hp hs
    simp [extractTextFromDocumentFlow, hp, hs]
  · intro hp
    simp [extractTextFromDocumentFlow, hp]

theorem extraction_never_fails_witness :
    ((fun _ : String => some (Json.obj [( "text", Json.str "hello")])) "raw" =
        some (Json.obj [( "text", Json.str "hello")]) ∧
      zodParseOutput (Json.obj [( "text", Json.str "hello")]) = some "hello") ∧
    extractTextFromDocumentFlow "raw"
        (fun _ => some (Json.obj [( "text", Json.str "hello")])) =
      ExtractOutput.mk "hello" :=
  ⟨⟨rfl, rfl⟩,
   (extraction_never_fails "raw"
       (fun _ => some (Json.obj [( "text", Json.str "hello")]))).1
     (Json.obj [( "text", Json.str "hello")]) "hello" rfl rfl⟩
